import Mathlib

/-!
Verification development for the Meeting Analyzer repository.

The TypeScript sources are shallowly embedded: strings are `List Char`,
JavaScript values flowing through the API are a `Json` inductive, the
external collaborators (the Anthropic model call and the Prisma store)
are oracle parameters, and each API handler becomes a pure Lean function
that also records which external effects it performed.
-/

namespace MA

/-- Json values as produced by the JavaScript `JSON.parse` builtin.
Numbers keep their source lexeme: no claim inspects numeric values. -/
inductive Json where
  | null : Json
  | bool : Bool → Json
  | num : List Char → Json
  | str : String → Json
  | arr : List Json → Json
  | obj : List (String × Json) → Json
deriving Repr

/-- JavaScript `String.prototype.trim` whitespace (the common subset). -/
def isJsSpace (c : Char) : Bool :=
  c = ' ' || c = '\t' || c = '\n' || c = '\r' || c = '\x0b' || c = '\x0c'

/-- Model of JavaScript `s.trim()` on a character list. -/
def trimList (s : List Char) : List Char :=
  ((s.dropWhile isJsSpace).reverse.dropWhile isJsSpace).reverse

/-- Index of the first occurrence of `c`, as the JS regex engine would find it. -/
def findIdx (c : Char) : List Char → Option Nat
  | [] => none
  | x :: xs => if x = c then some 0 else (findIdx c xs).map (· + 1)

/-- Index of the last occurrence of `c`. -/
def lastIdx (c : Char) (s : List Char) : Option Nat :=
  (findIdx c s.reverse).map (fun k => s.length - 1 - k)

/-- Model of `text.match(/\x7b[\s\S]*\x7d/)`: the greedy regex matches, when
possible, from the first opening brace to the last closing brace of the
whole text, and fails when no opening brace is followed by a closing one. -/
def braceSpan (s : List Char) : Option (List Char) :=
  match findIdx '\x7b' s, lastIdx '\x7d' s with
  | some i, some j => if i < j then some ((s.drop i).take (j - i + 1)) else none
  | _, _ => none

/-- Fuel-bounded scan deleting each non-overlapping occurrence of `pat`;
one unit of fuel per consumed character, so `s.length` fuel is enough. -/
def replaceAllAux (pat : List Char) : Nat → List Char → List Char
  | _, [] => []
  | 0, s => s
  | fuel + 1, c :: rest =>
    if pat ≠ [] ∧ pat.isPrefixOf (c :: rest) then
      replaceAllAux pat fuel (rest.drop (pat.length - 1))
    else
      c :: replaceAllAux pat fuel rest

/-- Model of JavaScript `s.replace(pat-as-global-regex, "")` for a literal
pattern: scan left to right, delete each non-overlapping occurrence. -/
def listReplaceAll (pat s : List Char) : List Char :=
  replaceAllAux pat s.length s

/-- JavaScript property lookup on a JSON-derived value: only objects have
named properties, and a duplicated key keeps its last occurrence. -/
def jsGet (j : Json) (k : String) : Option Json :=
  match j with
  | Json.obj fs => (fs.reverse.find? (fun p => p.1 = k)).map (·.2)
  | _ => none

/-- JavaScript truthiness of a JSON-derived value. -/
def jsTruthy : Json → Bool
  | Json.null => false
  | Json.bool b => b
  | Json.num n => !(n = ['0'] || n = ['-', '0'])
  | Json.str s => !s.isEmpty
  | Json.arr _ => true
  | Json.obj _ => true

/-- JavaScript `typeof v === "object"` for a JSON-derived value. -/
def jsTypeofObject : Json → Bool
  | Json.null => true
  | Json.arr _ => true
  | Json.obj _ => true
  | _ => false

/-- Is this value a JSON array (`Array.isArray`)? -/
def isJsonArr : Json → Bool
  | Json.arr _ => true
  | _ => false

/-- Is this value a JSON string (`typeof v === "string"`)? -/
def isJsonStr : Json → Bool
  | Json.str _ => true
  | _ => false

/- ### A model of the `JSON.parse` builtin (fuel-based recursive descent) -/

/-- JSON-grammar insignificant whitespace. -/
def skipWs : List Char → List Char
  | [] => []
  | c :: cs => if c = ' ' || c = '\t' || c = '\n' || c = '\r' then skipWs cs else c :: cs

/-- Value of one hex digit. -/
def hexVal (c : Char) : Option Nat :=
  if '0' ≤ c ∧ c ≤ '9' then some (c.toNat - '0'.toNat)
  else if 'a' ≤ c ∧ c ≤ 'f' then some (c.toNat - 'a'.toNat + 10)
  else if 'A' ≤ c ∧ c ≤ 'F' then some (c.toNat - 'A'.toNat + 10)
  else none

/-- Single-character escapes of JSON string literals. -/
def escChar (c : Char) : Option Char :=
  if c = '"' then some '"'
  else if c = '\\' then some '\\'
  else if c = '/' then some '/'
  else if c = 'b' then some '\x08'
  else if c = 'f' then some '\x0c'
  else if c = 'n' then some '\n'
  else if c = 'r' then some '\r'
  else if c = 't' then some '\t'
  else none

/-- Parse the body of a JSON string literal (the opening quote is already
consumed); returns the decoded characters and the remaining input. -/
def parseStrChars : List Char → Option (List Char × List Char)
  | [] => none
  | '"' :: rest => some ([], rest)
  | '\\' :: rest =>
    match rest with
    | [] => none
    | 'u' :: a :: b :: c :: d :: rest2 =>
      match hexVal a, hexVal b, hexVal c, hexVal d with
      | some ha, some hb, some hc, some hd =>
        (parseStrChars rest2).map
          (fun p => (Char.ofNat (((ha * 16 + hb) * 16 + hc) * 16 + hd) :: p.1, p.2))
      | _, _, _, _ => none
    | e :: rest2 =>
      match escChar e with
      | some ch => (parseStrChars rest2).map (fun p => (ch :: p.1, p.2))
      | none => none
  | c :: rest =>
    if c.toNat < 32 then none
    else (parseStrChars rest).map (fun p => (c :: p.1, p.2))

/-- Split off a maximal run of decimal digits. -/
def spanDigits : List Char → (List Char × List Char)
  | [] => ([], [])
  | c :: cs =>
    if c.isDigit then
      let p := spanDigits cs
      (c :: p.1, p.2)
    else ([], c :: cs)

/-- Lex the exponent part of a JSON number if one is present. -/
def parseExpPart (s : List Char) : Option (List Char × List Char) :=
  match s with
  | e :: t =>
    if e = 'e' || e = 'E' then
      let q := match t with
        | '+' :: u => ((['+'] : List Char), u)
        | '-' :: u => ((['-'] : List Char), u)
        | _ => (([] : List Char), t)
      match spanDigits q.2 with
      | ([], _) => none
      | (es, t2) => some (e :: q.1 ++ es, t2)
    else some ([], s)
  | [] => some ([], [])

/-- Lex the fractional and exponent parts of a JSON number. -/
def parseFracExp (s : List Char) : Option (List Char × List Char) :=
  match s with
  | '.' :: t =>
    match spanDigits t with
    | ([], _) => none
    | (fs, t2) =>
      match parseExpPart t2 with
      | none => none
      | some (es, t3) => some ('.' :: fs ++ es, t3)
  | _ => parseExpPart s

/-- Lex a JSON number, returning its lexeme and the remaining input. -/
def parseNumLex (s : List Char) : Option (List Char × List Char) :=
  let p := match s with
    | '-' :: t => ((['-'] : List Char), t)
    | _ => (([] : List Char), s)
  match spanDigits p.2 with
  | ([], _) => none
  | (d :: ds, s2) =>
    match parseFracExp s2 with
    | none => none
    | some (tail, s3) => some (p.1 ++ (d :: ds) ++ tail, s3)

/-- Drop a literal expected prefix. -/
def stripPre : List Char → List Char → Option (List Char)
  | [], s => some s
  | _ :: _, [] => none
  | p :: ps, c :: cs => if p = c then stripPre ps cs else none

mutual

/-- Recursive-descent JSON value parser with explicit fuel. -/
def parseVal : Nat → List Char → Option (Json × List Char)
  | 0, _ => none
  | fuel + 1, s =>
    match skipWs s with
    | [] => none
    | c :: cs =>
      if c = '\x7b' then
        match skipWs cs with
        | '\x7d' :: r => some (Json.obj [], r)
        | t => parseFields fuel t []
      else if c = '[' then
        match skipWs cs with
        | ']' :: r => some (Json.arr [], r)
        | t => parseItems fuel t []
      else if c = '"' then
        (parseStrChars cs).map (fun p => (Json.str p.1.asString, p.2))
      else if c = 't' then
        (stripPre ['r', 'u', 'e'] cs).map (fun r => (Json.bool true, r))
      else if c = 'f' then
        (stripPre ['a', 'l', 's', 'e'] cs).map (fun r => (Json.bool false, r))
      else if c = 'n' then
        (stripPre ['u', 'l', 'l'] cs).map (fun r => (Json.null, r))
      else
        (parseNumLex (c :: cs)).map (fun p => (Json.num p.1, p.2))

/-- Parse the members of a JSON object after at least one is expected. -/
def parseFields : Nat → List Char → List (String × Json) → Option (Json × List Char)
  | 0, _, _ => none
  | fuel + 1, s, acc =>
    match skipWs s with
    | '"' :: cs =>
      match parseStrChars cs with
      | none => none
      | some (key, rest) =>
        match skipWs rest with
        | ':' :: rest2 =>
          match parseVal fuel rest2 with
          | none => none
          | some (v, rest3) =>
            match skipWs rest3 with
            | ',' :: rest4 => parseFields fuel rest4 ((key.asString, v) :: acc)
            | '\x7d' :: rest4 => some (Json.obj (((key.asString, v) :: acc).reverse), rest4)
            | _ => none
        | _ => none
    | _ => none

/-- Parse the elements of a JSON array after at least one is expected. -/
def parseItems : Nat → List Char → List Json → Option (Json × List Char)
  | 0, _, _ => none
  | fuel + 1, s, acc =>
    match parseVal fuel s with
    | none => none
    | some (v, rest) =>
      match skipWs rest with
      | ',' :: rest2 => parseItems fuel rest2 (v :: acc)
      | ']' :: rest2 => some (Json.arr ((v :: acc).reverse), rest2)
      | _ => none

end

/-- Model of `JSON.parse`: parse one value, reject trailing garbage. -/
def parseJson (s : List Char) : Option Json :=
  match parseVal (2 * s.length + 4) s with
  | some (v, rest) => if skipWs rest = [] then some v else none
  | none => none

/-- Test an optional JS value with a predicate (`undefined` fails). -/
def optIs (p : Json → Bool) : Option Json → Bool
  | some v => p v
  | none => false

/- ### Schema Validator (src/types/analysis.ts) -/

/-- Custom message of `z.string().min(10, ...)` in `AnalyzeRequestSchema`. -/
def minMsg : String := "Transcript must be at least 10 characters long"

/-- Custom message of `z.string().max(5000, ...)` in `AnalyzeRequestSchema`. -/
def maxMsg : String := "Transcript cannot exceed 5000 characters"

/-- Model of `AnalyzeRequestSchema.safeParse`: the body must be an object
whose `transcript` property is a string of 10 to 5000 characters; failure
carries the flattened field-error messages for `transcript`. -/
def zodParseAnalyzeRequest (b : Json) : Except (List String) (List Char) :=
  match b with
  | Json.obj _ =>
    match jsGet b "transcript" with
    | some (Json.str s) =>
      let t := s.toList
      let errs := (if t.length < 10 then [minMsg] else [])
        ++ (if t.length > 5000 then [maxMsg] else [])
      if errs.isEmpty then Except.ok t else Except.error errs
    | some _ => Except.error ["Expected string, received other type"]
    | none => Except.error ["Required"]
  | _ => Except.error ["Expected object, received other type"]

/-- One validated action item of `AnalysisResultSchema`. -/
structure ActionItem where
  owner : String
  task : String
  deadline : Option String
deriving Repr, DecidableEq

/-- The validated analysis result type inferred from `AnalysisResultSchema`. -/
structure AnalysisResult where
  action_items : List ActionItem
  decisions : List String
  sentiment : String
deriving Repr, DecidableEq

/-- Validate one element of the `action_items` array: an object whose
`owner` and `task` are strings and whose `deadline` is a string or null
(the key itself is required by `z.string().nullable()`). -/
def parseActionItem (j : Json) : Option ActionItem :=
  match j with
  | Json.obj _ =>
    match jsGet j "owner", jsGet j "task", jsGet j "deadline" with
    | some (Json.str o), some (Json.str t), some (Json.str d) => some ⟨o, t, some d⟩
    | some (Json.str o), some (Json.str t), some Json.null => some ⟨o, t, none⟩
    | _, _, _ => none
  | _ => none

/-- Validate one element of the `decisions` array: a string. -/
def parseDecision (j : Json) : Option String :=
  match j with
  | Json.str s => some s
  | _ => none

/-- Model of `safeParseAnalysis`: `AnalysisResultSchema.safeParse` followed
by the null-on-failure convention. Totality of this function models the
guarantee that invalid input never throws to the caller. -/
def safeParseAnalysis (d : Json) : Option AnalysisResult :=
  match d with
  | Json.obj _ =>
    match jsGet d "action_items", jsGet d "decisions", jsGet d "sentiment" with
    | some (Json.arr items), some (Json.arr decs), some (Json.str sent) =>
      match items.mapM parseActionItem, decs.mapM parseDecision with
      | some ais, some ds => some ⟨ais, ds, sent⟩
      | _, _ => none
    | _, _, _ => none
  | _ => none

/- ### Analysis Requester (src/lib/anthropic.ts) -/

/-- The literal pattern of the first cleanup replacement. -/
def fenceJsonPat : List Char := "```json".toList

/-- The literal pattern of the second cleanup replacement. -/
def fencePat : List Char := "```".toList

/-- The strict output check of `analyzeMeeting` (its own, stronger than the
handler's): truthy object with array `action_items`, array `decisions`
and string `sentiment`. -/
def strictShape (v : Json) : Bool :=
  jsTruthy v && jsTypeofObject v
    && optIs isJsonArr (jsGet v "action_items")
    && optIs isJsonArr (jsGet v "decisions")
    && optIs isJsonStr (jsGet v "sentiment")

/-- The response-processing tail of `analyzeMeeting` (lines 51-88): trim the
text block, greedily match a brace span, strip code-fence markers, parse as
JSON and check the strict shape. A shape failure is thrown inside the same
try block as `JSON.parse`, so its surfaced message is the parse-error one. -/
def extractAnalysis (respText : List Char) : Except String Json :=
  let jsonText := trimList respText
  match braceSpan jsonText with
  | none => Except.error "Claude returned invalid JSON format."
  | some m =>
    let cleaned := trimList (listReplaceAll fencePat (listReplaceAll fenceJsonPat m))
    match parseJson cleaned with
    | none => Except.error "Failed to parse Claude response as valid JSON."
    | some parsed =>
      if strictShape parsed then Except.ok parsed
      else Except.error "Failed to parse Claude response as valid JSON."

/-- Possible outcomes of the outbound Anthropic API call, an oracle. -/
inductive ApiOutcome where
  | transportErr : String → ApiOutcome
  | noTextBlock : ApiOutcome
  | text : List Char → ApiOutcome

/-- Every error leaving `analyzeMeeting` is rewrapped by its outer catch. -/
def apiErrPre : String := "Anthropic API error: "

/-- Model of `analyzeMeeting`: defensive validation (note: only the trimmed
lower length bound is re-checked; there is no upper-bound re-check), then
the API call, then `extractAnalysis`. The Bool records whether the
external model call was made. -/
def analyzeMeetingModel (text : List Char) (api : ApiOutcome) :
    Except String Json × Bool :=
  if (trimList text).length < 10 then
    (Except.error (apiErrPre ++
      "Invalid transcript: must be a non-empty string of at least 10 characters."), false)
  else
    match api with
    | ApiOutcome.transportErr m => (Except.error (apiErrPre ++ m), true)
    | ApiOutcome.noTextBlock =>
      (Except.error (apiErrPre ++ "No text content returned from Anthropic API"), true)
    | ApiOutcome.text t =>
      match extractAnalysis t with
      | Except.error m => (Except.error (apiErrPre ++ m), true)
      | Except.ok v => (Except.ok v, true)

/- ### Request Handlers (src/pages/api) -/

/-- A Prisma-style persistence error: an optional error code and a message. -/
structure PrismaErr where
  code : Option String
  msg : String
deriving Repr, DecidableEq

/-- The Transcript+Analysis pair written by the Analyze handler. -/
structure SavedRecord where
  text : List Char
  actionItems : Json
  decisions : Json
  sentiment : Json
deriving Repr

/-- Observable outcome of one Analyze request, effects included. -/
structure AnalyzeOutcome where
  status : Nat
  error : Option String
  details : Option (List String)
  modelCalled : Bool
  dbAttempted : Bool
  saved : Option SavedRecord
deriving Repr

/-- The Analyze handler's own output-format check (lines 179-184): it
inspects `action_items` and `decisions` only, never `sentiment`. -/
def handlerFormatOk (a : Json) : Bool :=
  jsTruthy a && jsTypeofObject a
    && optIs isJsonArr (jsGet a "action_items")
    && optIs isJsonArr (jsGet a "decisions")

/-- The sentiment value written at persistence time:
`analysis.sentiment ?? "Unknown"` (nullish coalescing). -/
def persistedSentiment (a : Json) : Json :=
  match jsGet a "sentiment" with
  | none => Json.str "Unknown"
  | some Json.null => Json.str "Unknown"
  | some v => v

/-- Model of the `POST /api/analyze` handler. The Anthropic call and the
database write are oracle parameters consulted only if the code reaches
them; the outcome records whether each was reached. -/
def runAnalyze (method : String) (body : Option Json) (api : ApiOutcome)
    (dbo : Except PrismaErr Unit) : AnalyzeOutcome :=
  if method ≠ "POST" then
    ⟨405, some "Method not allowed. Use POST instead.", none, false, false, none⟩
  else
    match body with
    | none => ⟨400, some "Invalid or empty request body. Expected JSON.", none, false, false, none⟩
    | some b =>
      if !(jsTruthy b && jsTypeofObject b) then
        ⟨400, some "Invalid or empty request body. Expected JSON.", none, false, false, none⟩
      else
        match zodParseAnalyzeRequest b with
        | Except.error msgs =>
          ⟨400, some "Invalid request body structure.", some msgs, false, false, none⟩
        | Except.ok transcript =>
          if (trimList transcript).length < 10 then
            ⟨400, some "Transcript must be a non-empty string with at least 10 characters.",
              none, false, false, none⟩
          else if transcript.length > 5000 then
            ⟨400, some "Transcript too long. Maximum allowed is 5000 characters.",
              none, false, false, none⟩
          else
            match analyzeMeetingModel transcript api with
            | (Except.error m, called) =>
              ⟨500, some "AI analysis failed.", some [m], called, false, none⟩
            | (Except.ok analysis, called) =>
              if !handlerFormatOk analysis then
                ⟨500, some "AI returned unexpected data format.", none, called, false, none⟩
              else
                match dbo with
                | Except.error e =>
                  ⟨500, some "Failed to save analysis results to database.", some [e.msg],
                    called, true, none⟩
                | Except.ok _ =>
                  ⟨200, none, none, called, true,
                    some ⟨transcript, (jsGet analysis "action_items").getD Json.null,
                      (jsGet analysis "decisions").getD Json.null, persistedSentiment analysis⟩⟩

/-- A query-string parameter as Next.js presents it:
absent, a single string, or repeated strings. -/
inductive QueryVal where
  | missing : QueryVal
  | one : List Char → QueryVal
  | many : List (List Char) → QueryVal

/-- Observable outcome of one Delete request. -/
structure DeleteOutcome where
  status : Nat
  error : Option String
  message : Option String
  deleteCalled : Bool
deriving Repr, DecidableEq

/-- The Prisma-error arm of the Delete handler's catch block:
P2025 to 404, P1001 to 503, any other code to 500; an error without a
code falls to the generic 500 branch. -/
def prismaCatchDelete (called : Bool) (e : PrismaErr) : DeleteOutcome :=
  match e.code with
  | some c =>
    if c = "P2025" then ⟨404, some "Analysis not found (already deleted).", none, called⟩
    else if c = "P1001" then
      ⟨503, some "Cannot reach the database. Please try again later.", none, called⟩
    else ⟨500, some "Database error occurred while deleting analysis.", none, called⟩
  | none => ⟨500, some "Unexpected server error while deleting analysis.", none, called⟩

/-- Model of the `DELETE /api/deleteanalysis` handler. `findOut` is the
`findUnique` oracle (does a record with this id exist, or a thrown error);
`delOut` is the `delete` oracle. -/
def runDelete (method : String) (idq : QueryVal)
    (findOut : Except PrismaErr Bool) (delOut : Except PrismaErr Unit) : DeleteOutcome :=
  if method ≠ "DELETE" then
    ⟨405, some "Method not allowed. Use DELETE instead.", none, false⟩
  else
    match idq with
    | QueryVal.missing => ⟨400, some "Invalid or missing analysis ID.", none, false⟩
    | QueryVal.many _ => ⟨400, some "Invalid or missing analysis ID.", none, false⟩
    | QueryVal.one s =>
      if s.isEmpty || (trimList s).length = 0 then
        ⟨400, some "Invalid or missing analysis ID.", none, false⟩
      else
        match findOut with
        | Except.error e => prismaCatchDelete false e
        | Except.ok false =>
          ⟨404, some "Analysis not found. It may have already been deleted.", none, false⟩
        | Except.ok true =>
          match delOut with
          | Except.error e => prismaCatchDelete true e
          | Except.ok _ => ⟨200, none, some "Analysis deleted successfully.", true⟩

/-- The Delete handler against a well-behaved store, modelled as the list
of existing analysis ids; returns the outcome and the store afterwards. -/
def runDeleteStore (method : String) (idq : QueryVal) (store : List (List Char)) :
    DeleteOutcome × List (List Char) :=
  let found : Bool := match idq with
    | QueryVal.one s => decide (s ∈ store)
    | _ => false
  let out := runDelete method idq (Except.ok found) (Except.ok ())
  (out,
    if out.deleteCalled then
      match idq with
      | QueryVal.one s => store.erase s
      | _ => store
    else store)

/-- One stored Transcript+Analysis pair as returned by the List handler
(only the fields the claims inspect). -/
structure AnalysisRec where
  id : List Char
  text : List Char
  createdAt : Nat
deriving Repr, DecidableEq

/-- Model of `prisma.analysis.findMany({..., orderBy: createdAt desc})`:
the store's records sorted newest-first by creation time. -/
def findManyDesc (store : List AnalysisRec) : List AnalysisRec :=
  List.insertionSort (fun a b => b.createdAt ≤ a.createdAt) store

/-- Observable outcome of one List request. -/
structure FetchOutcome where
  status : Nat
  error : Option String
  body : Option (List AnalysisRec)
deriving Repr

/-- Model of the `GET /api/fetchanalysis` handler; `dbOut` is the
`findMany` oracle (the fetched records, or a thrown error). -/
def runFetch (method : String) (dbOut : Except PrismaErr (List AnalysisRec)) : FetchOutcome :=
  if method ≠ "GET" then
    ⟨405, some "Method not allowed. Only GET is supported.", none⟩
  else
    match dbOut with
    | Except.error e =>
      match e.code with
      | some c =>
        if c = "P1001" then ⟨503, some "Database connection error.", none⟩
        else ⟨500, some "Failed to fetch past analyses.", none⟩
      | none => ⟨500, some "Failed to fetch past analyses.", none⟩
    | Except.ok analyses =>
      if analyses.isEmpty then ⟨404, some "No analyses found.", none⟩
      else ⟨200, none, some analyses⟩

/- ### Helper lemmas about the regex-match model -/

lemma findIdx_cons_head (c : Char) (t : List Char) : findIdx c (c :: t) = some 0 := by
  simp [findIdx]

lemma findIdx_append_head (pre t : List Char) (c : Char) (h : c ∉ pre) :
    findIdx c (pre ++ c :: t) = some pre.length := by
  induction pre with
  | nil => simp [findIdx]
  | cons p ps ih =>
    have hpc : p ≠ c := by
      intro he
      exact h (he ▸ List.mem_cons_self p ps)
    have hps : c ∉ ps := fun hm => h (List.mem_cons_of_mem p hm)
    simp only [List.cons_append, findIdx, List.append_eq, if_neg (fun he : p = c => hpc he)]
    rw [ih hps]
    simp

lemma findIdx_isSome_getElem {c : Char} :
    ∀ {s : List Char} {i : Nat}, findIdx c s = some i → i < s.length ∧ s[i]? = some c := by
  intro s
  induction s with
  | nil => intro i h; simp [findIdx] at h
  | cons x xs ih =>
    intro i h
    by_cases hx : x = c
    · subst hx
      simp [findIdx] at h
      subst h
      simp
    · simp only [findIdx, if_neg hx] at h
      match hfi : findIdx c xs with
      | none => rw [hfi] at h; simp at h
      | some k =>
        rw [hfi] at h
        simp at h
        obtain ⟨hk1, hk2⟩ := ih hfi
        subst h
        refine ⟨by simpa using Nat.succ_lt_succ hk1, by simpa using hk2⟩

lemma lastIdx_decomp (A B : List Char) (c : Char) (h : c ∉ B) :
    lastIdx c (A ++ c :: B) = some A.length := by
  have hrev : (A ++ c :: B).reverse = B.reverse ++ c :: A.reverse := by
    simp
  have hB : c ∉ B.reverse := by simpa using h
  unfold lastIdx
  rw [hrev, findIdx_append_head B.reverse A.reverse c hB]
  simp

lemma braceSpan_embed (pre o suf : List Char)
    (hpre : '\x7b' ∉ pre) (hsuf : '\x7d' ∉ suf)
    (h1 : ∃ o1, o = '\x7b' :: o1) (h2 : ∃ o2, o = o2 ++ ['\x7d']) :
    braceSpan (pre ++ o ++ suf) = some o := by
  obtain ⟨o1, ho1⟩ := h1
  obtain ⟨o2, ho2⟩ := h2
  have hlen : o.length = o2.length + 1 := by rw [ho2]; simp
  have holen : 2 ≤ o.length := by
    rcases o2 with _ | ⟨c2, t2⟩
    · exfalso
      rw [ho2] at ho1
      simp at ho1
    · rw [hlen]; simp
  have hfind : findIdx '\x7b' (pre ++ o ++ suf) = some pre.length := by
    have : pre ++ o ++ suf = pre ++ '\x7b' :: (o1 ++ suf) := by
      rw [ho1]; simp
    rw [this]
    exact findIdx_append_head pre (o1 ++ suf) '\x7b' hpre
  have hlast : lastIdx '\x7d' (pre ++ o ++ suf) = some (pre.length + o2.length) := by
    have : pre ++ o ++ suf = (pre ++ o2) ++ '\x7d' :: suf := by
      rw [ho2]; simp
    rw [this, lastIdx_decomp (pre ++ o2) suf '\x7d' hsuf]
    simp
  have hij : pre.length < pre.length + o2.length := by
    have : 1 ≤ o2.length := by omega
    omega
  have hdrop : (pre ++ o ++ suf).drop pre.length = o ++ suf := by
    rw [List.append_assoc, List.drop_left]
  have htake : (o ++ suf).take (pre.length + o2.length - pre.length + 1) = o := by
    have he : pre.length + o2.length - pre.length + 1 = o.length := by omega
    rw [he, List.take_left]
  simp only [braceSpan, hfind, hlast, if_pos hij, hdrop, htake]

lemma braceSpan_pair {s m : List Char} (h : braceSpan s = some m) :
    ∃ i j : Nat, i < j ∧ s[i]? = some '\x7b' ∧ s[j]? = some '\x7d' := by
  unfold braceSpan at h
  cases hf : findIdx '\x7b' s with
  | none => rw [hf] at h; simp at h
  | some i =>
    cases hl : lastIdx '\x7d' s with
    | none => rw [hf, hl] at h; simp at h
    | some j =>
      rw [hf, hl] at h
      by_cases hij : i < j
      · obtain ⟨_, hgi⟩ := findIdx_isSome_getElem hf
        have hj : s[j]? = some '\x7d' := by
          unfold lastIdx at hl
          cases hr : findIdx '\x7d' s.reverse with
          | none => rw [hr] at hl; simp at hl
          | some k =>
            rw [hr] at hl
            simp at hl
            obtain ⟨hk1, hk2⟩ := findIdx_isSome_getElem hr
            have hklen : k < s.length := by simpa using hk1
            have hgj : s[s.length - 1 - k]? = some '\x7d' := by
              rw [← List.getElem?_reverse]
              · exact hk2
              · omega
            rw [← hl]
            exact hgj
        exact ⟨i, j, hij, hgi, hj⟩
      · simp [hij] at h

lemma replaceAllAux_of_not_mem (p : Char) (ps : List Char) :
    ∀ (fuel : Nat) (s : List Char), p ∉ s → replaceAllAux (p :: ps) fuel s = s := by
  intro fuel
  induction fuel with
  | zero => intro s _; cases s <;> rfl
  | succ f ih =>
    intro s hs
    cases s with
    | nil => rfl
    | cons c rest =>
      have hpc : p ≠ c := fun he => hs (he ▸ List.mem_cons_self c rest)
      have hrest : p ∉ rest := fun hm => hs (List.mem_cons_of_mem c hm)
      have hcond : ¬((p :: ps) ≠ [] ∧ (p :: ps).isPrefixOf (c :: rest) = true) := by
        intro hco
        have hpr := hco.2
        simp [List.isPrefixOf] at hpr
        exact hpc hpr.1
      simp only [replaceAllAux]
      rw [if_neg hcond, ih rest hrest]

lemma listReplaceAll_of_not_mem (p : Char) (ps s : List Char) (h : p ∉ s) :
    listReplaceAll (p :: ps) s = s :=
  replaceAllAux_of_not_mem p ps s.length s h

lemma dropWhile_eq_self_of_head (c : Char) (t : List Char) (h : isJsSpace c = false) :
    List.dropWhile isJsSpace (c :: t) = c :: t := by
  simp [List.dropWhile_cons, h]

lemma trimList_eq_self (o : List Char)
    (h1 : ∃ o1, o = '\x7b' :: o1) (h2 : ∃ o2, o = o2 ++ ['\x7d']) :
    trimList o = o := by
  obtain ⟨o1, ho1⟩ := h1
  obtain ⟨o2, ho2⟩ := h2
  unfold trimList
  have hd : o.dropWhile isJsSpace = o := by
    rw [ho1]; exact dropWhile_eq_self_of_head _ _ (by decide)
  rw [hd]
  have hrev : o.reverse = '\x7d' :: o2.reverse := by rw [ho2]; simp
  rw [hrev, dropWhile_eq_self_of_head _ _ (by decide), ← hrev, List.reverse_reverse]

lemma dropWhile_append_nonWs (a : List Char) (c : Char) (t : List Char)
    (hc : isJsSpace c = false) :
    ∃ a2, List.dropWhile isJsSpace (a ++ c :: t) = a2 ++ c :: t ∧ ∀ x, x ∈ a2 → x ∈ a := by
  induction a with
  | nil => exact ⟨[], by simpa using dropWhile_eq_self_of_head c t hc, by simp⟩
  | cons y ys ih =>
    by_cases hy : isJsSpace y
    · obtain ⟨a2, he, hm⟩ := ih
      refine ⟨a2, ?_, fun x hx => List.mem_cons_of_mem y (hm x hx)⟩
      rw [List.cons_append, List.dropWhile_cons, if_pos hy, he]
    · refine ⟨y :: ys, ?_, fun x hx => hx⟩
      rw [List.cons_append, List.dropWhile_cons, if_neg hy]

lemma trimList_decomp (pre o suf : List Char)
    (h1 : ∃ o1, o = '\x7b' :: o1) (h2 : ∃ o2, o = o2 ++ ['\x7d']) :
    ∃ pre2 suf2, trimList (pre ++ o ++ suf) = pre2 ++ o ++ suf2
      ∧ (∀ c, c ∈ pre2 → c ∈ pre) ∧ (∀ c, c ∈ suf2 → c ∈ suf) := by
  obtain ⟨o1, ho1⟩ := h1
  obtain ⟨o2, ho2⟩ := h2
  have hsplit : pre ++ o ++ suf = pre ++ '\x7b' :: (o1 ++ suf) := by rw [ho1]; simp
  obtain ⟨pre2, heL, hmL⟩ := dropWhile_append_nonWs pre '\x7b' (o1 ++ suf) (by decide)
  have hL : List.dropWhile isJsSpace (pre ++ o ++ suf) = pre2 ++ o ++ suf := by
    rw [hsplit, heL, ho1]; simp
  unfold trimList
  rw [hL]
  have hrev : (pre2 ++ o ++ suf).reverse = suf.reverse ++ '\x7d' :: (o2.reverse ++ pre2.reverse) := by
    rw [ho2]; simp
  rw [hrev]
  obtain ⟨b2, heR, hmR⟩ := dropWhile_append_nonWs suf.reverse '\x7d' (o2.reverse ++ pre2.reverse) (by decide)
  rw [heR]
  refine ⟨pre2, b2.reverse, ?_, hmL, ?_⟩
  · rw [ho2]; simp
  · intro c hc
    have hcb : c ∈ b2 := by simpa using hc
    simpa using hmR c hcb

lemma trimList_segment (s : List Char) : ∃ a b, s = a ++ trimList s ++ b := by
  have h1 : s.takeWhile isJsSpace ++ s.dropWhile isJsSpace = s :=
    List.takeWhile_append_dropWhile isJsSpace s
  set u := s.dropWhile isJsSpace with hu
  have h2 : u.reverse.takeWhile isJsSpace ++ u.reverse.dropWhile isJsSpace = u.reverse :=
    List.takeWhile_append_dropWhile isJsSpace u.reverse
  have h3 : u = (u.reverse.dropWhile isJsSpace).reverse ++ (u.reverse.takeWhile isJsSpace).reverse := by
    have h4 := congrArg List.reverse h2
    rw [List.reverse_append, List.reverse_reverse] at h4
    exact h4.symm
  refine ⟨s.takeWhile isJsSpace, (u.reverse.takeWhile isJsSpace).reverse, ?_⟩
  have h5 : trimList s = (u.reverse.dropWhile isJsSpace).reverse := by
    unfold trimList
    rw [← hu]
  rw [h5, List.append_assoc, ← h3, h1]

lemma getElem?_mid (a t b : List Char) (i : Nat) (h : i < t.length) :
    (a ++ t ++ b)[a.length + i]? = t[i]? := by
  rw [List.append_assoc, List.getElem?_append_right (by omega : a.length ≤ a.length + i)]
  have he : a.length + i - a.length = i := by omega
  rw [he]
  simp [List.getElem?_append, h]

/-- The backtick character of markdown code fences. -/
def fenceChar : Char := Char.ofNat 96

lemma cleanup_eq_self (o : List Char) (hbt : fenceChar ∉ o)
    (h1 : ∃ o1, o = '\x7b' :: o1) (h2 : ∃ o2, o = o2 ++ ['\x7d']) :
    trimList (listReplaceAll fencePat (listReplaceAll fenceJsonPat o)) = o := by
  have hfj : fenceJsonPat = fenceChar :: "\x60\x60json".toList := by decide
  have hf2 : fencePat = fenceChar :: "\x60\x60".toList := by decide
  have e1 : listReplaceAll fenceJsonPat o = o := by
    rw [hfj]; exact listReplaceAll_of_not_mem _ _ _ hbt
  have e2 : listReplaceAll fencePat o = o := by
    rw [hf2]; exact listReplaceAll_of_not_mem _ _ _ hbt
  rw [e1, e2, trimList_eq_self o h1 h2]

lemma head?_decomp {s : List Char} {c : Char} (h : s.head? = some c) : ∃ t, s = c :: t := by
  cases s with
  | nil => simp at h
  | cons x xs =>
    simp at h
    exact ⟨xs, by rw [h]⟩

lemma getLast?_decomp {s : List Char} {c : Char} (h : s.getLast? = some c) :
    ∃ t, s = t ++ [c] := by
  have hr : s.reverse.head? = some c := by rw [List.head?_reverse]; exact h
  obtain ⟨t, ht⟩ := head?_decomp hr
  refine ⟨t.reverse, ?_⟩
  have h2 := congrArg List.reverse ht
  simpa using h2

/- ### Claim theorems -/

/-- C2: the Analysis Requester's JSON extraction matches greedily from the
first opening brace to the last closing brace of the model response, so
prose and code-fence markers around a single well-shaped, fence-free JSON
object are stripped and the object parses successfully; a response text
with no opening brace followed by a closing brace fails with the explicit
invalid-format error instead of returning a value. -/
theorem c2_json_extraction :
    (∀ pre o suf (v : Json), '\x7b' ∉ pre → '\x7d' ∉ suf → fenceChar ∉ o →
      o.head? = some '\x7b' → o.getLast? = some '\x7d' →
      parseJson o = some v → strictShape v = true →
      extractAnalysis (pre ++ o ++ suf) = Except.ok v)
    ∧ (∀ s : List Char,
        (∀ j, j < s.length → ∀ i, i < j → ¬(s[i]? = some '\x7b' ∧ s[j]? = some '\x7d')) →
        extractAnalysis s = Except.error "Claude returned invalid JSON format.") := by
  constructor
  · intro pre o suf v hpre hsuf hbt hh hl hp hs
    obtain ⟨o1, ho1⟩ := head?_decomp hh
    obtain ⟨o2, ho2⟩ := getLast?_decomp hl
    obtain ⟨pre2, suf2, htr, hm1, hm2⟩ := trimList_decomp pre o suf ⟨o1, ho1⟩ ⟨o2, ho2⟩
    have hpre2 : '\x7b' ∉ pre2 := fun hm => hpre (hm1 _ hm)
    have hsuf2 : '\x7d' ∉ suf2 := fun hm => hsuf (hm2 _ hm)
    have hbs : braceSpan (trimList (pre ++ o ++ suf)) = some o := by
      rw [htr]
      exact braceSpan_embed pre2 o suf2 hpre2 hsuf2 ⟨o1, ho1⟩ ⟨o2, ho2⟩
    have hclean := cleanup_eq_self o hbt ⟨o1, ho1⟩ ⟨o2, ho2⟩
    simp only [extractAnalysis, hbs, hclean, hp, hs, if_true]
  · intro s hnp
    have hbs : braceSpan (trimList s) = none := by
      cases hb : braceSpan (trimList s) with
      | none => rfl
      | some m =>
        exfalso
        obtain ⟨i, j, hij, hgi, hgj⟩ := braceSpan_pair hb
        obtain ⟨a, b, hseq⟩ := trimList_segment s
        have hjlt : j < (trimList s).length := by
          by_contra hcon
          push_neg at hcon
          rw [List.getElem?_eq_none hcon] at hgj
          exact Option.noConfusion hgj
        have hilt : i < (trimList s).length := Nat.lt_trans hij hjlt
        have egi : s[a.length + i]? = some '\x7b' := by
          calc s[a.length + i]? = (a ++ trimList s ++ b)[a.length + i]? := by rw [← hseq]
          _ = (trimList s)[i]? := getElem?_mid a _ b i hilt
          _ = some '\x7b' := hgi
        have egj : s[a.length + j]? = some '\x7d' := by
          calc s[a.length + j]? = (a ++ trimList s ++ b)[a.length + j]? := by rw [← hseq]
          _ = (trimList s)[j]? := getElem?_mid a _ b j hjlt
          _ = some '\x7d' := hgj
        have hslen : s.length = a.length + (trimList s).length + b.length := by
          have hc := congrArg List.length hseq
          simp at hc
          omega
        exact hnp (a.length + j) (by omega) (a.length + i) (by omega) ⟨egi, egj⟩
    simp only [extractAnalysis, hbs]

/-- A prose-plus-code-fence prefix with no braces. -/
def c2wPre : List Char := "Sure thing! ```json\n".toList

/-- A well-shaped JSON object with no code-fence characters. -/
def c2wObj : List Char :=
  "\x7b\"action_items\":[],\"decisions\":[\"ship\"],\"sentiment\":\"positive\"\x7d".toList

/-- A prose-plus-code-fence tail with no braces. -/
def c2wSuf : List Char := "\n``` hope this helps".toList

/-- The parsed value of `c2wObj`. -/
def c2wVal : Json :=
  Json.obj [("action_items", Json.arr []), ("decisions", Json.arr [Json.str "ship"]),
    ("sentiment", Json.str "positive")]

/-- A model response with no brace pair at all. -/
def c2wBad : List Char := "no json here at all".toList

/-- Witness for C2 at concrete inputs. -/
theorem c2_json_extraction_witness :
    extractAnalysis (c2wPre ++ c2wObj ++ c2wSuf) = Except.ok c2wVal ∧
    extractAnalysis c2wBad = Except.error "Claude returned invalid JSON format." := by
  constructor
  · exact c2_json_extraction.1 c2wPre c2wObj c2wSuf c2wVal (by decide) (by decide) (by decide)
      (by decide) (by decide) (by rfl) (by decide)
  · exact c2_json_extraction.2 c2wBad (by decide)

lemma analyzeMeetingModel_short {t : List Char} (api : ApiOutcome)
    (h : (trimList t).length < 10) :
    analyzeMeetingModel t api =
      (Except.error (apiErrPre ++
        "Invalid transcript: must be a non-empty string of at least 10 characters."), false) := by
  unfold analyzeMeetingModel
  rw [if_pos h]

lemma analyzeMeetingModel_calls {t : List Char} (api : ApiOutcome)
    (h : 10 ≤ (trimList t).length) :
    (analyzeMeetingModel t api).2 = true := by
  unfold analyzeMeetingModel
  rw [if_neg (by omega)]
  cases api with
  | transportErr m => simp
  | noTextBlock => simp
  | text t2 => cases hx : extractAnalysis t2 <;> simp [hx]

lemma analyzeMeetingModel_not_short_of_called {t : List Char} {api : ApiOutcome}
    {r : Except String Json} (h : analyzeMeetingModel t api = (r, true)) :
    10 ≤ (trimList t).length := by
  by_contra hc
  push_neg at hc
  rw [analyzeMeetingModel_short api hc] at h
  have h2 := congrArg Prod.snd h
  simp at h2

lemma zodParse_ok_of_bounds (fs : List (String × Json)) (t : String)
    (ht : jsGet (Json.obj fs) "transcript" = some (Json.str t))
    (h1 : 10 ≤ t.length) (h2 : t.length ≤ 5000) :
    zodParseAnalyzeRequest (Json.obj fs) = Except.ok t.toList := by
  unfold zodParseAnalyzeRequest
  rw [ht]
  simp
  exact ⟨h1, h2⟩

/-- C1: a request body whose transcript string is shorter than 10 or longer
than 5000 characters is rejected with status 400 and a non-empty
field-error breakdown, and neither the model call nor the persistence
write is performed. -/
theorem c1_length_validation (fs : List (String × Json)) (t : String)
    (api : ApiOutcome) (dbo : Except PrismaErr Unit)
    (ht : jsGet (Json.obj fs) "transcript" = some (Json.str t))
    (h : t.length < 10 ∨ t.length > 5000) :
    (runAnalyze "POST" (some (Json.obj fs)) api dbo).status = 400
    ∧ (∃ msgs, (runAnalyze "POST" (some (Json.obj fs)) api dbo).details = some msgs ∧ msgs ≠ [])
    ∧ (runAnalyze "POST" (some (Json.obj fs)) api dbo).modelCalled = false
    ∧ (runAnalyze "POST" (some (Json.obj fs)) api dbo).dbAttempted = false
    ∧ (runAnalyze "POST" (some (Json.obj fs)) api dbo).saved = none := by
  rcases h with h | h
  · have hA : ¬(10 ≤ t.length ∧ t.length ≤ 5000) := by omega
    have hB : ¬(5000 < t.length) := by omega
    have hzod : zodParseAnalyzeRequest (Json.obj fs) = Except.error [minMsg] := by
      unfold zodParseAnalyzeRequest
      rw [ht]
      simp [hA, hB, h]
    have heq : runAnalyze "POST" (some (Json.obj fs)) api dbo =
        ⟨400, some "Invalid request body structure.", some [minMsg], false, false, none⟩ := by
      unfold runAnalyze
      simp [hzod, jsTruthy, jsTypeofObject]
    rw [heq]
    exact ⟨rfl, ⟨[minMsg], rfl, by simp [minMsg]⟩, rfl, rfl, rfl⟩
  · have hA : ¬(10 ≤ t.length ∧ t.length ≤ 5000) := by omega
    have hB : ¬(t.length < 10) := by omega
    have hC : 5000 < t.length := by omega
    have hzod : zodParseAnalyzeRequest (Json.obj fs) = Except.error [maxMsg] := by
      unfold zodParseAnalyzeRequest
      rw [ht]
      simp [hA, hB, hC]
    have heq : runAnalyze "POST" (some (Json.obj fs)) api dbo =
        ⟨400, some "Invalid request body structure.", some [maxMsg], false, false, none⟩ := by
      unfold runAnalyze
      simp [hzod, jsTruthy, jsTypeofObject]
    rw [heq]
    exact ⟨rfl, ⟨[maxMsg], rfl, by simp [maxMsg]⟩, rfl, rfl, rfl⟩

/-- Witness for C1 at a concrete 5-character transcript. -/
theorem c1_length_validation_witness :
    (runAnalyze "POST" (some (Json.obj [("transcript", Json.str "short")]))
      ApiOutcome.noTextBlock (Except.ok ())).status = 400
    ∧ (∃ msgs, (runAnalyze "POST" (some (Json.obj [("transcript", Json.str "short")]))
        ApiOutcome.noTextBlock (Except.ok ())).details = some msgs ∧ msgs ≠ [])
    ∧ (runAnalyze "POST" (some (Json.obj [("transcript", Json.str "short")]))
        ApiOutcome.noTextBlock (Except.ok ())).modelCalled = false
    ∧ (runAnalyze "POST" (some (Json.obj [("transcript", Json.str "short")]))
        ApiOutcome.noTextBlock (Except.ok ())).dbAttempted = false
    ∧ (runAnalyze "POST" (some (Json.obj [("transcript", Json.str "short")]))
        ApiOutcome.noTextBlock (Except.ok ())).saved = none :=
  c1_length_validation [("transcript", Json.str "short")] "short"
    ApiOutcome.noTextBlock (Except.ok ()) (by rfl) (Or.inl (by decide))

/-- C3: for a transcript within bounds, when the model call is made and
fails, the Analyze handler returns 500 with the diagnostic message and
nothing is persisted; and in general the persistence write is reached only
after a successful model call whose result passes the format check. -/
theorem c3_model_failure_atomic :
    (∀ fs (t : String) api dbo msg,
      jsGet (Json.obj fs) "transcript" = some (Json.str t) →
      10 ≤ t.length → t.length ≤ 5000 →
      analyzeMeetingModel t.toList api = (Except.error msg, true) →
      runAnalyze "POST" (some (Json.obj fs)) api dbo =
        ⟨500, some "AI analysis failed.", some [msg], true, false, none⟩)
    ∧ (∀ method body api dbo,
        (runAnalyze method body api dbo).dbAttempted = true →
        (runAnalyze method body api dbo).modelCalled = true ∧
        ∃ t a, analyzeMeetingModel t api = (Except.ok a, true) ∧ handlerFormatOk a = true) := by
  constructor
  · intro fs t api dbo msg ht h1 h2 hm
    have hzod := zodParse_ok_of_bounds fs t ht h1 h2
    have h10 : ¬((trimList t.data).length < 10) := by
      have hx := analyzeMeetingModel_not_short_of_called hm
      have hx2 : 10 ≤ (trimList t.data).length := hx
      omega
    have h5000 : ¬(5000 < t.length) := by omega
    have hm2 : analyzeMeetingModel t.data api = (Except.error msg, true) := hm
    unfold runAnalyze
    simp [hzod, jsTruthy, jsTypeofObject, h10, h5000, hm2]
  · intro method body api dbo h
    by_cases hm : method = "POST"
    case neg => simp [runAnalyze, hm] at h
    subst hm
    cases body with
    | none => simp [runAnalyze] at h
    | some b =>
      by_cases hb : (jsTruthy b && jsTypeofObject b) = true
      case neg => simp [runAnalyze, hb] at h
      cases hz : zodParseAnalyzeRequest b with
      | error msgs => simp [runAnalyze, hb, hz] at h
      | ok t =>
        by_cases h10 : (trimList t).length < 10
        case pos => simp [runAnalyze, hb, hz, h10] at h
        by_cases h5k : t.length > 5000
        case pos => simp [runAnalyze, hb, hz, h10, h5k] at h
        cases hmm : analyzeMeetingModel t api with
        | mk r called =>
          cases r with
          | error m => simp [runAnalyze, hb, hz, h10, h5k, hmm] at h
          | ok analysis =>
            by_cases hfmt : handlerFormatOk analysis = true
            case neg => simp [runAnalyze, hb, hz, h10, h5k, hmm, hfmt] at h
            have hcalled : called = true := by
              by_contra hc
              have hc2 : called = false := by
                cases called
                · rfl
                · exact absurd rfl hc
              rw [hc2] at hmm
              unfold analyzeMeetingModel at hmm
              split at hmm
              · simp at hmm
              · cases api with
                | transportErr m2 => simp at hmm
                | noTextBlock => simp at hmm
                | text t2 => cases hx : extractAnalysis t2 <;> simp [hx] at hmm
            subst hcalled
            refine ⟨?_, t, analysis, hmm, hfmt⟩
            simp only [runAnalyze, hb, hz, h10, h5k, hmm, hfmt]
            simp [h10, h5k]
            cases dbo <;> simp

/-- A transcript of valid length used by several witnesses. -/
def okTranscript : String := "a perfectly valid meeting transcript"

/-- The request body holding `okTranscript`. -/
def okBody : Json := Json.obj [("transcript", Json.str okTranscript)]

/-- A model response that is exactly one well-shaped JSON object. -/
def okRespText : List Char :=
  "\x7b\"action_items\":[],\"decisions\":[],\"sentiment\":\"fine\"\x7d".toList

/-- Witness for C3 at concrete inputs: a transport failure of the model
call, and a successful run reaching the persistence write. -/
theorem c3_model_failure_atomic_witness :
    (runAnalyze "POST" (some okBody) (ApiOutcome.transportErr "boom") (Except.ok ()) =
      ⟨500, some "AI analysis failed.", some ["Anthropic API error: boom"], true, false, none⟩)
    ∧ ((runAnalyze "POST" (some okBody) (ApiOutcome.text okRespText) (Except.ok ())).modelCalled = true
       ∧ ∃ t a, analyzeMeetingModel t (ApiOutcome.text okRespText) = (Except.ok a, true)
           ∧ handlerFormatOk a = true) := by
  constructor
  · exact c3_model_failure_atomic.1 [("transcript", Json.str okTranscript)] okTranscript
      (ApiOutcome.transportErr "boom") (Except.ok ()) "Anthropic API error: boom"
      (by rfl) (by decide) (by decide) (by rfl)
  · exact c3_model_failure_atomic.2 "POST" (some okBody) (ApiOutcome.text okRespText)
      (Except.ok ()) (by rfl)

lemma trimList_replicate (n : Nat) (c : Char) (hc : isJsSpace c = false) :
    trimList (List.replicate n c) = List.replicate n c := by
  have h1 : List.dropWhile isJsSpace (List.replicate n c) = List.replicate n c := by
    cases n with
    | zero => simp
    | succ m =>
      rw [List.replicate_succ]
      exact dropWhile_eq_self_of_head _ _ hc
  unfold trimList
  rw [h1, List.reverse_replicate, h1, List.reverse_replicate]

/-- The over-length input refuting C4's upper-bound re-validation. -/
def c4Long : List Char := List.replicate 5001 'a'

/-- C4 counterexample: an input of 5001 characters violates the stated
length bounds, yet `analyzeMeeting` does not fail: it proceeds to call the
model (the model-called flag of the run is true). -/
theorem c4_counterexample :
    c4Long.length = 5001
    ∧ (analyzeMeetingModel c4Long (ApiOutcome.transportErr "net down")).2 = true := by
  constructor
  · unfold c4Long
    rw [List.length_replicate]
  · apply analyzeMeetingModel_calls
    unfold c4Long
    rw [trimList_replicate 5001 'a' (by decide), List.length_replicate]
    omega

/-- C4 amended: `analyzeMeeting` re-validates only the lower bound — when
the trimmed input has fewer than 10 characters (which covers every raw
input shorter than 10 characters) it fails with the explicit error without
calling the model; every other input, including those longer than 5000
characters, proceeds to the model call. -/
theorem c4_amended_revalidation :
    (∀ (t : List Char) (api : ApiOutcome), (trimList t).length < 10 →
      analyzeMeetingModel t api =
        (Except.error (apiErrPre ++
          "Invalid transcript: must be a non-empty string of at least 10 characters."), false))
    ∧ (∀ (t : List Char) (api : ApiOutcome), 10 ≤ (trimList t).length →
        (analyzeMeetingModel t api).2 = true) :=
  ⟨fun _ api h => analyzeMeetingModel_short api h,
   fun _ api h => analyzeMeetingModel_calls api h⟩

/-- Witness for the amended C4 at concrete inputs. -/
theorem c4_amended_revalidation_witness :
    (analyzeMeetingModel "short".toList ApiOutcome.noTextBlock =
      (Except.error (apiErrPre ++
        "Invalid transcript: must be a non-empty string of at least 10 characters."), false))
    ∧ (analyzeMeetingModel (List.replicate 5001 'a') ApiOutcome.noTextBlock).2 = true := by
  constructor
  · exact c4_amended_revalidation.1 "short".toList ApiOutcome.noTextBlock (by decide)
  · exact c4_amended_revalidation.2 (List.replicate 5001 'a') ApiOutcome.noTextBlock
      (by rw [trimList_replicate 5001 'a' (by decide), List.length_replicate]; omega)

/-- C9: a transcript whose raw length is within the schema bounds but whose
trimmed length is below 10 is still rejected with 400 by the Analyze
handler, before any model call or persistence write. -/
theorem c9_trimmed_length_rejection (fs : List (String × Json)) (t : String)
    (api : ApiOutcome) (dbo : Except PrismaErr Unit)
    (ht : jsGet (Json.obj fs) "transcript" = some (Json.str t))
    (h1 : 10 ≤ t.length) (h2 : t.length ≤ 5000)
    (h3 : (trimList t.toList).length < 10) :
    runAnalyze "POST" (some (Json.obj fs)) api dbo =
      ⟨400, some "Transcript must be a non-empty string with at least 10 characters.",
        none, false, false, none⟩ := by
  have hzod := zodParse_ok_of_bounds fs t ht h1 h2
  have h3d : (trimList t.data).length < 10 := h3
  unfold runAnalyze
  simp [hzod, jsTruthy, jsTypeofObject, h3d]

/-- Witness for C9: ten characters, nine of which are padding spaces. -/
theorem c9_trimmed_length_rejection_witness :
    runAnalyze "POST" (some (Json.obj [("transcript", Json.str "    a     ")]))
      ApiOutcome.noTextBlock (Except.ok ()) =
      ⟨400, some "Transcript must be a non-empty string with at least 10 characters.",
        none, false, false, none⟩ :=
  c9_trimmed_length_rejection [("transcript", Json.str "    a     ")] "    a     "
    ApiOutcome.noTextBlock (Except.ok ()) (by rfl) (by decide) (by decide) (by decide)

lemma isEmpty_false_of_trim_ne {s : List Char} (h : (trimList s).length ≠ 0) :
    s.isEmpty = false := by
  cases s with
  | nil => exact absurd rfl h
  | cons c cs => rfl

/-- C6: for Delete requests, a missing or all-whitespace id yields 400; an
id matching no record yields 404 with a not-found message, never success,
and leaves the store unchanged; an id matching a record yields 200 with the
confirmation message and the record is removed. -/
theorem c6_delete_semantics :
    (∀ store, (runDeleteStore "DELETE" QueryVal.missing store).1.status = 400)
    ∧ (∀ (s : List Char) store, (trimList s).length = 0 →
        (runDeleteStore "DELETE" (QueryVal.one s) store).1.status = 400)
    ∧ (∀ (s : List Char) store, (trimList s).length ≠ 0 → s ∉ store →
        (runDeleteStore "DELETE" (QueryVal.one s) store).1 =
          ⟨404, some "Analysis not found. It may have already been deleted.", none, false⟩
        ∧ (runDeleteStore "DELETE" (QueryVal.one s) store).2 = store)
    ∧ (∀ (s : List Char) store, store.Nodup → (trimList s).length ≠ 0 → s ∈ store →
        (runDeleteStore "DELETE" (QueryVal.one s) store).1 =
          ⟨200, none, some "Analysis deleted successfully.", true⟩
        ∧ s ∉ (runDeleteStore "DELETE" (QueryVal.one s) store).2) := by
  refine ⟨?_, ?_, ?_, ?_⟩
  · intro store
    simp [runDeleteStore, runDelete]
  · intro s store h
    simp [runDeleteStore, runDelete, h]
  · intro s store h hmem
    have he := isEmpty_false_of_trim_ne h
    constructor
    · simp [runDeleteStore, runDelete, he, h, hmem]
    · simp [runDeleteStore, runDelete, he, h, hmem]
  · intro s store hnd h hmem
    have he := isEmpty_false_of_trim_ne h
    constructor
    · simp [runDeleteStore, runDelete, he, h, hmem]
    · simp [runDeleteStore, runDelete, he, h, hmem, hnd.mem_erase_iff]

/-- Witness for C6 at a concrete two-element store. -/
theorem c6_delete_semantics_witness :
    ((runDeleteStore "DELETE" QueryVal.missing ["abc".toList]).1.status = 400)
    ∧ ((runDeleteStore "DELETE" (QueryVal.one "   ".toList) ["abc".toList]).1.status = 400)
    ∧ ((runDeleteStore "DELETE" (QueryVal.one "nope".toList) ["abc".toList]).1 =
        ⟨404, some "Analysis not found. It may have already been deleted.", none, false⟩
      ∧ (runDeleteStore "DELETE" (QueryVal.one "nope".toList) ["abc".toList]).2 = ["abc".toList])
    ∧ ((runDeleteStore "DELETE" (QueryVal.one "abc".toList) ["abc".toList, "def".toList]).1 =
        ⟨200, none, some "Analysis deleted successfully.", true⟩
      ∧ "abc".toList ∉ (runDeleteStore "DELETE" (QueryVal.one "abc".toList)
          ["abc".toList, "def".toList]).2) := by
  refine ⟨?_, ?_, ?_, ?_⟩
  · exact c6_delete_semantics.1 ["abc".toList]
  · exact c6_delete_semantics.2.1 "   ".toList ["abc".toList] (by decide)
  · exact c6_delete_semantics.2.2.1 "nope".toList ["abc".toList] (by decide) (by decide)
  · exact c6_delete_semantics.2.2.2 "abc".toList ["abc".toList, "def".toList]
      (by decide) (by decide) (by decide)

instance : IsTotal AnalysisRec (fun a b => b.createdAt ≤ a.createdAt) :=
  ⟨fun a b => le_total b.createdAt a.createdAt⟩

instance : IsTrans AnalysisRec (fun a b => b.createdAt ≤ a.createdAt) :=
  ⟨fun _ _ _ hab hbc => le_trans hbc hab⟩

/-- C7: the List handler returns 200 with all stored records ordered
newest-first by creation time when the store is non-empty, and the distinct
404 empty signal when the store holds no analyses. -/
theorem c7_list_newest_first :
    (∀ store : List AnalysisRec, store ≠ [] →
      (runFetch "GET" (Except.ok (findManyDesc store))).status = 200
      ∧ (runFetch "GET" (Except.ok (findManyDesc store))).body = some (findManyDesc store)
      ∧ (findManyDesc store).Sorted (fun a b => b.createdAt ≤ a.createdAt)
      ∧ (findManyDesc store).Perm store)
    ∧ (runFetch "GET" (Except.ok (findManyDesc [])) = ⟨404, some "No analyses found.", none⟩) := by
  constructor
  · intro store hne
    have hperm : (findManyDesc store).Perm store := List.perm_insertionSort _ _
    have hsorted : (findManyDesc store).Sorted (fun a b => b.createdAt ≤ a.createdAt) :=
      List.sorted_insertionSort _ _
    have hne2 : (findManyDesc store).isEmpty = false := by
      cases hfd : findManyDesc store with
      | nil =>
        exfalso
        have hx := hperm.length_eq
        rw [hfd] at hx
        simp at hx
        exact hne (List.eq_nil_of_length_eq_zero hx.symm)
      | cons a l => rfl
    refine ⟨?_, ?_, hsorted, hperm⟩ <;> simp [runFetch, hne2]
  · rfl

/-- Witness for C7 at a concrete two-record store. -/
theorem c7_list_newest_first_witness :
    (runFetch "GET" (Except.ok (findManyDesc
        [⟨"a".toList, "t1".toList, 3⟩, ⟨"b".toList, "t2".toList, 7⟩]))).status = 200
    ∧ (runFetch "GET" (Except.ok (findManyDesc
        [⟨"a".toList, "t1".toList, 3⟩, ⟨"b".toList, "t2".toList, 7⟩]))).body =
        some (findManyDesc [⟨"a".toList, "t1".toList, 3⟩, ⟨"b".toList, "t2".toList, 7⟩])
    ∧ (findManyDesc [⟨"a".toList, "t1".toList, 3⟩, ⟨"b".toList, "t2".toList, 7⟩]).Sorted
        (fun a b => b.createdAt ≤ a.createdAt)
    ∧ (findManyDesc [⟨"a".toList, "t1".toList, 3⟩, ⟨"b".toList, "t2".toList, 7⟩]).Perm
        [⟨"a".toList, "t1".toList, 3⟩, ⟨"b".toList, "t2".toList, 7⟩] :=
  c7_list_newest_first.1 [⟨"a".toList, "t1".toList, 3⟩, ⟨"b".toList, "t2".toList, 7⟩]
    (by simp)

/-- C5 counterexample: a persistence failure with connection-error code
P1001 during the Analyze handler's write is mapped to 500, not to the 503
the claim requires of all three handlers. -/
theorem c5_counterexample :
    (runAnalyze "POST" (some okBody) (ApiOutcome.text okRespText)
      (Except.error ⟨some "P1001", "connection refused"⟩)).status = 500
    ∧ ¬((runAnalyze "POST" (some okBody) (ApiOutcome.text okRespText)
      (Except.error ⟨some "P1001", "connection refused"⟩)).status = 503) :=
  ⟨by rfl, by decide⟩

/-- C5 amended: the Delete handler maps P2025 to 404, P1001 to 503 and any
other persistence error code to 500, and the List handler maps P1001 to
503 and any other persistence error to 500 (with the empty store giving
404); the Analyze handler however maps every persistence failure to 500
and never returns 503. -/
theorem c5_amended_status_mapping :
    (∀ (s : List Char) (m : String) dOut, (trimList s).length ≠ 0 →
      (runDelete "DELETE" (QueryVal.one s) (Except.error ⟨some "P2025", m⟩) dOut).status = 404
      ∧ (runDelete "DELETE" (QueryVal.one s) (Except.error ⟨some "P1001", m⟩) dOut).status = 503
      ∧ (∀ c : String, c ≠ "P2025" → c ≠ "P1001" →
          (runDelete "DELETE" (QueryVal.one s) (Except.error ⟨some c, m⟩) dOut).status = 500))
    ∧ (∀ m : String, (runFetch "GET" (Except.error ⟨some "P1001", m⟩)).status = 503
        ∧ (∀ c : String, c ≠ "P1001" →
            (runFetch "GET" (Except.error ⟨some c, m⟩)).status = 500))
    ∧ (∀ method body api dbo, (runAnalyze method body api dbo).status ≠ 503) := by
  refine ⟨?_, ?_, ?_⟩
  · intro s m dOut h
    have he := isEmpty_false_of_trim_ne h
    refine ⟨?_, ?_, ?_⟩
    · simp [runDelete, prismaCatchDelete, he, h]
    · simp [runDelete, prismaCatchDelete, he, h]
    · intro c hc1 hc2
      simp [runDelete, prismaCatchDelete, he, h, hc1, hc2]
  · intro m
    refine ⟨by simp [runFetch], ?_⟩
    intro c hc
    simp [runFetch, hc]
  · intro method body api dbo
    by_cases hm : method = "POST"
    case neg => simp [runAnalyze, hm]
    subst hm
    cases body with
    | none => simp [runAnalyze]
    | some b =>
      by_cases hb : (jsTruthy b && jsTypeofObject b) = true
      case neg => simp [runAnalyze, hb]
      cases hz : zodParseAnalyzeRequest b with
      | error msgs => simp [runAnalyze, hb, hz]
      | ok t =>
        by_cases h10 : (trimList t).length < 10
        case pos => simp [runAnalyze, hb, hz, h10]
        by_cases h5k : t.length > 5000
        case pos => simp [runAnalyze, hb, hz, h10, h5k]
        cases hmm : analyzeMeetingModel t api with
        | mk r called =>
          cases r with
          | error m2 => simp [runAnalyze, hb, hz, h10, h5k, hmm]
          | ok analysis =>
            by_cases hfmt : handlerFormatOk analysis = true
            case neg => simp [runAnalyze, hb, hz, h10, h5k, hmm, hfmt]
            cases dbo with
            | error e => simp [runAnalyze, hb, hz, h10, h5k, hmm, hfmt]
            | ok u => simp [runAnalyze, hb, hz, h10, h5k, hmm, hfmt]

/-- Witness for the amended C5 at concrete error codes. -/
theorem c5_amended_status_mapping_witness :
    ((runDelete "DELETE" (QueryVal.one "someid".toList)
        (Except.error ⟨some "P2025", "gone"⟩) (Except.ok ())).status = 404
      ∧ (runDelete "DELETE" (QueryVal.one "someid".toList)
        (Except.error ⟨some "P1001", "gone"⟩) (Except.ok ())).status = 503
      ∧ (runDelete "DELETE" (QueryVal.one "someid".toList)
        (Except.error ⟨some "P9999", "gone"⟩) (Except.ok ())).status = 500)
    ∧ ((runFetch "GET" (Except.error ⟨some "P1001", "down"⟩)).status = 503
      ∧ (runFetch "GET" (Except.error ⟨some "P9999", "down"⟩)).status = 500)
    ∧ (runAnalyze "POST" (some okBody) ApiOutcome.noTextBlock
        (Except.error ⟨some "P1001", "down"⟩)).status ≠ 503 := by
  refine ⟨⟨?_, ?_, ?_⟩, ⟨?_, ?_⟩, ?_⟩
  · exact (c5_amended_status_mapping.1 "someid".toList "gone" (Except.ok ()) (by decide)).1
  · exact (c5_amended_status_mapping.1 "someid".toList "gone" (Except.ok ()) (by decide)).2.1
  · exact (c5_amended_status_mapping.1 "someid".toList "gone" (Except.ok ()) (by decide)).2.2
      "P9999" (by decide) (by decide)
  · exact (c5_amended_status_mapping.2.1 "down").1
  · exact (c5_amended_status_mapping.2.1 "down").2 "P9999" (by decide)
  · exact c5_amended_status_mapping.2.2 "POST" (some okBody) ApiOutcome.noTextBlock
      (Except.error ⟨some "P1001", "down"⟩)

lemma extractAnalysis_ok_shape {t : List Char} {v : Json}
    (h : extractAnalysis t = Except.ok v) : strictShape v = true := by
  unfold extractAnalysis at h
  cases hb : braceSpan (trimList t) with
  | none => simp [hb] at h
  | some m =>
    simp only [hb] at h
    cases hp : parseJson (trimList (listReplaceAll fencePat (listReplaceAll fenceJsonPat m))) with
    | none => simp [hp] at h
    | some parsed =>
      simp only [hp] at h
      by_cases hc : strictShape parsed = true
      · rw [if_pos hc] at h
        simp at h
        rw [← h]
        exact hc
      · rw [if_neg hc] at h
        simp at h

lemma analyzeMeetingModel_ok_shape {t : List Char} {api : ApiOutcome} {a : Json} {c : Bool}
    (h : analyzeMeetingModel t api = (Except.ok a, c)) : strictShape a = true := by
  unfold analyzeMeetingModel at h
  split at h
  · simp at h
  · cases api with
    | transportErr m => simp at h
    | noTextBlock => simp at h
    | text t2 =>
      cases hx : extractAnalysis t2 with
      | error m => simp [hx] at h
      | ok v =>
        simp [hx] at h
        rw [← h.1]
        exact extractAnalysis_ok_shape hx

lemma strictShape_sentiment {v : Json} (h : strictShape v = true) :
    ∃ s, jsGet v "sentiment" = some (Json.str s) := by
  have h4 : optIs isJsonStr (jsGet v "sentiment") = true := by
    unfold strictShape at h
    cases hy : optIs isJsonStr (jsGet v "sentiment")
    · rw [hy] at h
      simp at h
    · rfl
  cases hx : jsGet v "sentiment" with
  | none => rw [hx] at h4; simp [optIs] at h4
  | some x =>
    rw [hx] at h4
    cases x with
    | str s => exact ⟨s, rfl⟩
    | null => simp [optIs, isJsonStr] at h4
    | bool b => simp [optIs, isJsonStr] at h4
    | num n => simp [optIs, isJsonStr] at h4
    | arr xs => simp [optIs, isJsonStr] at h4
    | obj fs => simp [optIs, isJsonStr] at h4

lemma persistedSentiment_of_str {v : Json} {s : String}
    (h : jsGet v "sentiment" = some (Json.str s)) :
    persistedSentiment v = Json.str s := by
  unfold persistedSentiment
  rw [h]

/-- C10: every record the Analyze handler persists carries a string
sentiment (the model result that reaches the write always has one); the
handler's own output-format check does not inspect sentiment at all (an
analysis with a numeric sentiment passes it); and a null or absent
sentiment would be replaced by the literal string "Unknown" at persistence
time. -/
theorem c10_sentiment_invariant :
    (∀ method body api dbo rec,
      (runAnalyze method body api dbo).saved = some rec → ∃ s, rec.sentiment = Json.str s)
    ∧ (handlerFormatOk (Json.obj [("action_items", Json.arr []), ("decisions", Json.arr []),
        ("sentiment", Json.num ['5'])]) = true)
    ∧ (∀ a : Json, jsGet a "sentiment" = none ∨ jsGet a "sentiment" = some Json.null →
        persistedSentiment a = Json.str "Unknown") := by
  refine ⟨?_, by rfl, ?_⟩
  · intro method body api dbo rec h
    by_cases hm : method = "POST"
    case neg => simp [runAnalyze, hm] at h
    subst hm
    cases body with
    | none => simp [runAnalyze] at h
    | some b =>
      by_cases hb : (jsTruthy b && jsTypeofObject b) = true
      case neg => simp [runAnalyze, hb] at h
      cases hz : zodParseAnalyzeRequest b with
      | error msgs => simp [runAnalyze, hb, hz] at h
      | ok t =>
        by_cases h10 : (trimList t).length < 10
        case pos => simp [runAnalyze, hb, hz, h10] at h
        by_cases h5k : t.length > 5000
        case pos => simp [runAnalyze, hb, hz, h10, h5k] at h
        cases hmm : analyzeMeetingModel t api with
        | mk r called =>
          cases r with
          | error m2 => simp [runAnalyze, hb, hz, h10, h5k, hmm] at h
          | ok analysis =>
            by_cases hfmt : handlerFormatOk analysis = true
            case neg => simp [runAnalyze, hb, hz, h10, h5k, hmm, hfmt] at h
            cases dbo with
            | error e => simp [runAnalyze, hb, hz, h10, h5k, hmm, hfmt] at h
            | ok u =>
              simp [runAnalyze, hb, hz, h10, h5k, hmm, hfmt] at h
              obtain ⟨s, hs⟩ := strictShape_sentiment (analyzeMeetingModel_ok_shape hmm)
              refine ⟨s, ?_⟩
              rw [← h]
              exact persistedSentiment_of_str hs
  · intro a h
    rcases h with h | h <;> simp [persistedSentiment, h]

/-- Witness for C10: a successful analyze run whose persisted record has a
string sentiment, plus the null-sentiment substitution at a concrete
object. -/
theorem c10_sentiment_invariant_witness :
    (∃ s, (⟨okTranscript.toList, Json.arr [], Json.arr [],
        Json.str "fine"⟩ : SavedRecord).sentiment = Json.str s)
    ∧ persistedSentiment (Json.obj [("sentiment", Json.null)]) = Json.str "Unknown" := by
  constructor
  · exact c10_sentiment_invariant.1 "POST" (some okBody) (ApiOutcome.text okRespText)
      (Except.ok ()) ⟨okTranscript.toList, Json.arr [], Json.arr [], Json.str "fine"⟩ (by rfl)
  · exact c10_sentiment_invariant.2.2 (Json.obj [("sentiment", Json.null)]) (Or.inr (by rfl))

/-- C8: the Schema Validator is a total function of its input — modelled by
these Lean functions being total — and its success values faithfully
reflect the validated input: a successful `safeParseAnalysis` returns the
typed fields read from the object, a successful request parse returns a
transcript string within bounds, and a failed request parse always carries
at least one error message. -/
theorem c8_validator_no_throw :
    (∀ (d : Json) (r : AnalysisResult), safeParseAnalysis d = some r →
      (∃ items, jsGet d "action_items" = some (Json.arr items)
        ∧ items.mapM parseActionItem = some r.action_items)
      ∧ (∃ decs, jsGet d "decisions" = some (Json.arr decs)
        ∧ decs.mapM parseDecision = some r.decisions)
      ∧ jsGet d "sentiment" = some (Json.str r.sentiment))
    ∧ (∀ (b : Json) (t : List Char), zodParseAnalyzeRequest b = Except.ok t →
        ∃ s : String, jsGet b "transcript" = some (Json.str s) ∧ s.toList = t
          ∧ 10 ≤ s.length ∧ s.length ≤ 5000)
    ∧ (∀ (b : Json) (errs : List String), zodParseAnalyzeRequest b = Except.error errs →
        errs ≠ []) := by
  refine ⟨?_, ?_, ?_⟩
  · intro d r h
    obtain ⟨ra, rd, rs⟩ := r
    cases d with
    | null => simp [safeParseAnalysis] at h
    | bool x => simp [safeParseAnalysis] at h
    | num x => simp [safeParseAnalysis] at h
    | str x => simp [safeParseAnalysis] at h
    | arr x => simp [safeParseAnalysis] at h
    | obj fs =>
      unfold safeParseAnalysis at h
      cases hai : jsGet (Json.obj fs) "action_items" with
      | none => simp [hai] at h
      | some x1 =>
        cases x1 with
        | null => simp [hai] at h
        | bool y => simp [hai] at h
        | num y => simp [hai] at h
        | str y => simp [hai] at h
        | obj y => simp [hai] at h
        | arr items =>
          cases hde : jsGet (Json.obj fs) "decisions" with
          | none => simp [hai, hde] at h
          | some x2 =>
            cases x2 with
            | null => simp [hai, hde] at h
            | bool y => simp [hai, hde] at h
            | num y => simp [hai, hde] at h
            | str y => simp [hai, hde] at h
            | obj y => simp [hai, hde] at h
            | arr decs =>
              cases hse : jsGet (Json.obj fs) "sentiment" with
              | none => simp [hai, hde, hse] at h
              | some x3 =>
                cases x3 with
                | null => simp [hai, hde, hse] at h
                | bool y => simp [hai, hde, hse] at h
                | num y => simp [hai, hde, hse] at h
                | arr y => simp [hai, hde, hse] at h
                | obj y => simp [hai, hde, hse] at h
                | str sent =>
                  simp only [hai, hde, hse] at h
                  cases hmi : List.mapM.loop parseActionItem items [] with
                  | none => simp [hmi] at h
                  | some ais =>
                    cases hmd : List.mapM.loop parseDecision decs [] with
                    | none => simp [hmi, hmd] at h
                    | some ds =>
                      simp [hmi, hmd] at h
                      obtain ⟨h1, h2, h3⟩ := h
                      refine ⟨⟨items, rfl, ?_⟩, ⟨decs, rfl, ?_⟩, ?_⟩
                      · show List.mapM.loop parseActionItem items [] = some ra
                        rw [hmi, h1]
                      · show List.mapM.loop parseDecision decs [] = some rd
                        rw [hmd, h2]
                      · rw [h3]
  · intro b t h
    cases b with
    | null => simp [zodParseAnalyzeRequest] at h
    | bool x => simp [zodParseAnalyzeRequest] at h
    | num x => simp [zodParseAnalyzeRequest] at h
    | str x => simp [zodParseAnalyzeRequest] at h
    | arr x => simp [zodParseAnalyzeRequest] at h
    | obj fs =>
      unfold zodParseAnalyzeRequest at h
      cases hg : jsGet (Json.obj fs) "transcript" with
      | none => simp [hg] at h
      | some x =>
        cases x with
        | null => simp [hg] at h
        | bool y => simp [hg] at h
        | num y => simp [hg] at h
        | arr y => simp [hg] at h
        | obj y => simp [hg] at h
        | str s =>
          simp [hg] at h
          by_cases hok : 10 ≤ s.length ∧ s.length ≤ 5000
          · rw [if_pos hok] at h
            simp at h
            exact ⟨s, rfl, h, hok.1, hok.2⟩
          · rw [if_neg hok] at h
            simp at h
  · intro b errs h
    intro hne
    subst hne
    cases b with
    | null => simp [zodParseAnalyzeRequest] at h
    | bool x => simp [zodParseAnalyzeRequest] at h
    | num x => simp [zodParseAnalyzeRequest] at h
    | str x => simp [zodParseAnalyzeRequest] at h
    | arr x => simp [zodParseAnalyzeRequest] at h
    | obj fs =>
      unfold zodParseAnalyzeRequest at h
      cases hg : jsGet (Json.obj fs) "transcript" with
      | none => simp [hg] at h
      | some x =>
        cases x with
        | null => simp [hg] at h
        | bool y => simp [hg] at h
        | num y => simp [hg] at h
        | arr y => simp [hg] at h
        | obj y => simp [hg] at h
        | str s =>
          simp [hg] at h
          by_cases hok : 10 ≤ s.length ∧ s.length ≤ 5000
          · rw [if_pos hok] at h
            simp at h
          · rw [if_neg hok] at h
            simp at h
            exact hok h

/-- A well-shaped analysis object for the C8 witness. -/
def c8Json : Json :=
  Json.obj [("action_items", Json.arr [Json.obj [("owner", Json.str "Bob"),
      ("task", Json.str "ship it"), ("deadline", Json.null)]]),
    ("decisions", Json.arr [Json.str "go"]), ("sentiment", Json.str "positive")]

/-- Witness for C8 at concrete inputs: a valid analysis value, a valid
request body, and an invalid (non-object) request body. -/
theorem c8_validator_no_throw_witness :
    ((∃ items, jsGet c8Json "action_items" = some (Json.arr items)
        ∧ items.mapM parseActionItem =
            some (AnalysisResult.mk [⟨"Bob", "ship it", none⟩] ["go"] "positive").action_items)
      ∧ (∃ decs, jsGet c8Json "decisions" = some (Json.arr decs)
        ∧ decs.mapM parseDecision =
            some (AnalysisResult.mk [⟨"Bob", "ship it", none⟩] ["go"] "positive").decisions)
      ∧ jsGet c8Json "sentiment" =
          some (Json.str (AnalysisResult.mk [⟨"Bob", "ship it", none⟩] ["go"] "positive").sentiment))
    ∧ (∃ s : String, jsGet okBody "transcript" = some (Json.str s)
        ∧ s.toList = okTranscript.toList ∧ 10 ≤ s.length ∧ s.length ≤ 5000)
    ∧ (["Expected object, received other type"] ≠ ([] : List String)) := by
  refine ⟨?_, ?_, ?_⟩
  · exact c8_validator_no_throw.1 c8Json ⟨[⟨"Bob", "ship it", none⟩], ["go"], "positive"⟩ (by rfl)
  · exact c8_validator_no_throw.2.1 okBody okTranscript.toList (by rfl)
  · exact c8_validator_no_throw.2.2 Json.null ["Expected object, received other type"] (by rfl)

end MA
